import Mathlib

/-!
A shallow embedding of the sparse-checkout pattern engine of
`builtin/sparse-checkout.c`.

Paths and pattern lines are byte strings (ASCII in all inputs of interest),
modelled as Lean `String`/`List Char`.  The repository state visible to the
engine (HEAD tree, index, pattern file, the two config flags, the two file
locks) is a record, and each engine operation is a function from state to
result, new state, and a trace of lock events.

Collaborator code that is not part of `builtin/sparse-checkout.c`
(`dir.c`'s matchers, `unpack-trees.c`'s one-way merge, the config store) is
modelled from the specification; each such definition carries a
`Modelled from the spec:` doc comment.  Everything else is translated
directly from the C source.
-/

/-- `isspace` of C, used by `strbuf_trim`. -/
def isSpaceC (c : Char) : Bool :=
  c = ' ' || c = '\t' || c = '\n' || c = '\x0b' || c = '\x0c' || c = '\r'

/-- `strbuf_trim`: drop `isspace` characters from both ends. -/
def strbufTrim (s : String) : String :=
  String.mk (((s.toList.dropWhile isSpaceC).reverse.dropWhile isSpaceC).reverse)

/-- `strbuf_trim_trailing_dir_sep`: drop trailing `/` characters. -/
def trimTrailingDirSep (s : String) : String :=
  String.mk ((s.toList.reverse.dropWhile (fun c => c == '/')).reverse)

/-- Split a file's bytes into lines at `\n` (the final empty segment after a
terminating newline is kept and later skipped as an empty line). -/
def splitOnNl : List Char → List (List Char)
  | [] => [[]]
  | '\n' :: rest => [] :: splitOnNl rest
  | c :: rest =>
    match splitOnNl rest with
    | [] => [[c]]
    | l :: ls => (c :: l) :: ls

def splitLines (c : String) : List String :=
  (splitOnNl c.toList).map String.mk

/-- Last `/`-separated component of a path. -/
def lastComponent (x : List Char) : List Char :=
  (x.reverse.takeWhile (fun c => !(c == '/'))).reverse

/-- Auxiliary scan collecting, for each `/` in the path, the prefix strictly
before it. -/
def properDirsAux : List Char → List Char → List (List Char)
  | _, [] => []
  | pre, c :: cs =>
    if c = '/' then pre.reverse :: properDirsAux (c :: pre) cs
    else properDirsAux (c :: pre) cs

/-- The proper ancestor directories of a path, shortest first:
`properDirs "deep/deeper1/a" = ["deep", "deep/deeper1"]`. -/
def properDirs (p : List Char) : List (List Char) :=
  properDirsAux [] p

/-- Modelled from the spec: shell-glob matching used by the general-dialect
matcher (the matcher lives in `dir.c`, outside this file's source).  `*` and
`?` do not cross `/`.  Every recursive call shrinks `p.length + s.length`,
so that amount of fuel plus one always suffices; the fuel only makes the
recursion structural. -/
def globMatchFuel : Nat → List Char → List Char → Bool
  | 0, _, _ => false
  | fuel + 1, p, s =>
    match p, s with
    | [], [] => true
    | [], _ :: _ => false
    | c :: ps, ss =>
      if c = '*' then
        match ss with
        | [] => globMatchFuel fuel ps []
        | d :: ss2 => globMatchFuel fuel ps ss || (!(d == '/') && globMatchFuel fuel (c :: ps) ss2)
      else
        match ss with
        | [] => false
        | d :: ss2 => (if c = '?' then !(d == '/') else c == d) && globMatchFuel fuel ps ss2

def globMatch (p s : List Char) : Bool :=
  globMatchFuel (p.length + s.length + 1) p s

/-- A parsed general-dialect pattern line: leading `!` marks negation,
trailing `/` marks must-be-directory. -/
structure PatLine where
  neg : Bool
  dirOnly : Bool
  body : List Char
deriving DecidableEq

def parseLine (l : String) : PatLine :=
  let cs := l.toList
  let neg := match cs with
    | '!' :: _ => true
    | _ => false
  let cs1 := match cs with
    | '!' :: rest => rest
    | _ => cs
  let dirOnly := cs1.getLast? = some '/'
  let cs2 := if cs1.getLast? = some '/' then cs1.dropLast else cs1
  { neg := neg, dirOnly := dirOnly, body := cs2 }

/-- Modelled from the spec: match one pattern body against one path.  A body
with a leading `/` is anchored at the repository root; a body with an inner
`/` is likewise rooted; a slash-free body matches the path's last
component. -/
def lineMatchesPath (body x : List Char) : Bool :=
  match body with
  | '/' :: rest => globMatch rest x
  | _ => if body.contains '/' then globMatch body x else globMatch body (lastComponent x)

/-- Modelled from the spec: a pattern line applies to a file if it matches
the file itself (unless must-be-directory) or any of its ancestor
directories (a pattern matching a directory applies to the whole
subtree). -/
def lineMatchesFile (pl : PatLine) (p : List Char) : Bool :=
  (!pl.dirOnly && lineMatchesPath pl.body p) ||
    (properDirs p).any (fun d => lineMatchesPath pl.body d)

/-- Modelled from the spec: general-dialect verdict for a file; patterns are
evaluated in order and the last matching pattern wins, negated by a leading
`!`; empty and `#` lines are skipped. -/
def matchLines (lines : List String) (p : String) : Bool :=
  lines.foldl
    (fun acc l =>
      match l.toList with
      | [] => acc
      | '#' :: _ => acc
      | _ =>
        if lineMatchesFile (parseLine l) p.toList then !(parseLine l).neg else acc)
    false

/-- Modelled from the spec: interpretation of the on-disk pattern file as a
per-file inclusion predicate; a missing file means the worktree is not
restricted (everything included). -/
def interpFile : Option String → String → Bool
  | none, _ => true
  | some c, p => matchLines (splitLines c) p

/-- The two cone-mode hash sets of `struct pattern_list`
(`recursive_hashmap` and `parent_hashmap`), modelled as lists of keys. -/
structure ConeSets where
  recursive : List String
  parent : List String
deriving DecidableEq

/-- One step of the ancestor walk of `insert_recursive_pattern`: the prefix
of the pattern strictly before its last `/`, or `none` when the last `/` is
at position 0 (the walk breaks) or there is no `/` at all. -/
def dropLastComponent (p : String) : Option String :=
  match p.toList.reverse.dropWhile (fun c => !(c == '/')) with
  | [] => none
  | [_] => none
  | _ :: tail => some (String.mk tail.reverse)

theorem length_dropWhile_le {α : Type} (q : α → Bool) (l : List α) :
    (l.dropWhile q).length ≤ l.length := by
  induction l with
  | nil => simp [List.dropWhile]
  | cons x xs ih =>
    simp only [List.dropWhile]
    cases q x <;> simp <;> omega

theorem dropLastComponent_length {p a : String} (h : dropLastComponent p = some a) :
    a.length < p.length := by
  unfold dropLastComponent at h
  have hle : (p.toList.reverse.dropWhile (fun c => !(c == '/'))).length ≤
      p.toList.reverse.length := length_dropWhile_le _ _
  split at h
  · exact absurd h (by simp)
  · exact absurd h (by simp)
  · rename_i c tail heq
    cases h
    rw [heq] at hle
    simp only [List.length_cons, List.length_reverse, String.toList] at hle
    simp only [String.length, List.length_reverse]
    omega

/-- The `while (e->patternlen)` loop of `insert_recursive_pattern`: walk the
strict ancestors of `p` by repeatedly stripping the last `/`-component, and
add each one to `parent_hashmap` if not already present.  Each strip
shortens the pattern, so `p.length` units of fuel always suffice; the fuel
only makes the recursion structural. -/
def addAncestorsFuel : Nat → List String → String → List String
  | 0, parent, _ => parent
  | fuel + 1, parent, p =>
    match dropLastComponent p with
    | none => parent
    | some a => addAncestorsFuel fuel (if a ∈ parent then parent else a :: parent) a

def addAncestors (parent : List String) (p : String) : List String :=
  addAncestorsFuel p.length parent p

/-- The sequence of strict ancestors visited by that walk, longest first. -/
def ancestorChainFuel : Nat → String → List String
  | 0, _ => []
  | fuel + 1, p =>
    match dropLastComponent p with
    | none => []
    | some a => a :: ancestorChainFuel fuel a

def ancestorChain (p : String) : List String :=
  ancestorChainFuel p.length p

/-- `insert_recursive_pattern`: add the path to `recursive_hashmap`, then
add all its strict ancestors to `parent_hashmap`. -/
def insert_recursive_pattern (pl : ConeSets) (path : String) : ConeSets :=
  { recursive := path :: pl.recursive, parent := addAncestors pl.parent path }

/-- `strbuf_to_cone_pattern`: trim whitespace and trailing `/`, discard if
empty, prepend `/` if missing, then insert recursively. -/
def strbuf_to_cone_pattern (line : String) (pl : ConeSets) : ConeSets :=
  let l := trimTrailingDirSep (strbufTrim line)
  if l.toList.isEmpty then pl
  else
    let l2 := match l.toList with
      | '/' :: _ => l
      | _ => String.mk ('/' :: l.toList)
    insert_recursive_pattern pl l2

/-- The cone pattern list built by `sparse_checkout_set` from its
command-line arguments. -/
def buildConePatterns (args : List String) : ConeSets :=
  args.foldl (fun pl a => strbuf_to_cone_pattern a pl) ⟨[], []⟩

/-- Modelled from the spec: `hashmap_contains_parent` (in `dir.c`) — does
some proper `/`-prefix of `p` occur in the given key set? -/
def containsParentKey (keys : List String) (p : String) : Bool :=
  (ancestorChain p).any (fun a => keys.contains a)

/-- `strcmp`-style lexicographic byte comparison (codepoint comparison
coincides with byte comparison on the ASCII keys in play). -/
def charListLt : List Char → List Char → Bool
  | [], [] => false
  | [], _ :: _ => true
  | _ :: _, [] => false
  | a :: as, b :: bs =>
    if a.toNat < b.toNat then true
    else if b.toNat < a.toNat then false
    else charListLt as bs

def strLtB (x y : String) : Bool := charListLt x.toList y.toList

/-- Insert into a `string_list` kept sorted by byte comparison, without
duplicates (`string_list_insert`, then `string_list_sort` and
`string_list_remove_duplicates` are no-ops on such a list). -/
def insertSorted (x : String) : List String → List String
  | [] => [x]
  | y :: ys => if strLtB x y then x :: y :: ys else if x = y then y :: ys else y :: insertSorted x ys

def sortDedup (l : List String) : List String :=
  l.foldl (fun acc x => insertSorted x acc) []

/-- `write_cone_to_file`: serialize a cone pattern list.  Emits `/*` and
`!/*/`, then for each parent key that is not itself recursive and not
covered by a recursive ancestor, `p/` and `!p/*/` in sorted order, then each
recursive key not covered by a recursive ancestor as `r/` in sorted
order. -/
def write_cone_to_file (pl : ConeSets) : String :=
  let parents := sortDedup (pl.parent.filter
    (fun p => !(pl.recursive.contains p) && !(containsParentKey pl.recursive p)))
  let recs := sortDedup (pl.recursive.filter
    (fun p => !(containsParentKey pl.recursive p)))
  "/*\n!/*/\n"
    ++ String.join (parents.map (fun p =>
        if p.length == 0 then "" else p ++ "/\n!" ++ p ++ "/*/\n"))
    ++ String.join (recs.map (fun p => p ++ "/\n"))

/-- Errors surfaced by the engine, covering both non-zero returns and
`die()` exits. -/
inductive Err where
  | unmergedIndex
  | indexLocked
  | patternLockHeld
  | wouldLoseChanges
  | emptyCheckout
  | refreshFailed
deriving DecidableEq

/-- Result of one command: `ok` (exit 0), `fail` (non-zero return), or
`die` (process terminated with a message; also a non-zero exit). -/
inductive Res where
  | ok
  | fail (e : Err)
  | die (e : Err)
deriving DecidableEq

/-- Lock-file events, for the acquisition-order properties.  `commit` and
`rollback` both release the lock. -/
inductive LockEv where
  | acqIndex
  | relIndex
  | acqPattern
  | relPattern
deriving DecidableEq

/-- One index entry: its path, its skip-worktree bit, and whether the
materialized file carries local modifications relative to HEAD. -/
structure IndexEntry where
  path : String
  skip : Bool
  modified : Bool
deriving DecidableEq

/-- The on-disk repository state visible to the engine. -/
structure RepoState where
  head : Option (List String)
  indexEntries : List IndexEntry
  unmerged : Bool
  patternFile : Option String
  patternLock : Bool
  indexLock : Bool
  sparseCheckout : Bool
  sparseCheckoutCone : Bool
  worktreeConfigExt : Bool
deriving DecidableEq

structure Outcome where
  res : Res
  state : RepoState
  trace : List LockEv
deriving DecidableEq

/-- Modelled from the spec: the one-way merge of `unpack_trees` restricted
to what the engine relies on (spec 4.D step 7): matched entries are present
with `skip_worktree = 0`, unmatched entries get `skip_worktree = 1` and are
removed from the working tree; a materialized, locally modified file that
would become unmatched aborts; a result materializing zero entries
aborts. -/
def mergedEntry (m : String → Bool) (idx : List IndexEntry) (p : String) : IndexEntry :=
  { path := p, skip := !(m p),
    modified := match idx.find? (fun e => e.path == p) with
      | some old => !old.skip && old.modified && m p
      | none => false }

/-- Modelled from the spec: the one-way merge proper; see `mergedEntry` for
the per-entry result. -/
def unpackTrees (m : String → Bool) (tree : List String) (idx : List IndexEntry) :
    Except Err (List IndexEntry) :=
  if idx.any (fun e => !e.skip && e.modified && !(m e.path)) then
    .error .wouldLoseChanges
  else if tree.all (fun p => !(m p)) then
    .error .emptyCheckout
  else
    .ok (tree.map (mergedEntry m idx))

/-- `update_working_directory`, as a function of the state components it
reads: die on an unmerged index; return 0 untouched when `HEAD` does not
resolve; die if the index lock is held (`LOCK_DIE_ON_ERROR`); otherwise run
the one-way merge under the index lock, committing it on success and
rolling it back on failure.  Returns (result, new index, lock trace). -/
def updateWDCore (pl : Option (String → Bool)) (unmerged : Bool)
    (head : Option (List String)) (indexLock : Bool)
    (patternFile : Option String) (idx : List IndexEntry) :
    Res × List IndexEntry × List LockEv :=
  if unmerged then (.die .unmergedIndex, idx, [])
  else
    match head with
    | none => (.ok, idx, [])
    | some tree =>
      if indexLock then (.die .indexLocked, idx, [])
      else
        match unpackTrees (pl.getD (interpFile patternFile)) tree idx with
        | .error e => (.fail e, idx, [.acqIndex, .relIndex])
        | .ok idx2 => (.ok, idx2, [.acqIndex, .relIndex])

/-- `update_working_directory` on the full state: a `none` pattern list
means "read the on-disk pattern file".  Only the index can change. -/
def update_working_directory (pl : Option (String → Bool)) (s : RepoState) : Outcome :=
  let r := updateWDCore pl s.unmerged s.head s.indexLock s.patternFile s.indexEntries
  ⟨r.1, { s with indexEntries := r.2.1 }, r.2.2⟩

/-- The pattern lists `sparse_checkout_set` builds: the cone hash sets in
cone mode, else the raw general-dialect pattern strings. -/
inductive BuiltPatterns where
  | cone (sets : ConeSets)
  | general (lines : List String)
deriving DecidableEq

/-- Modelled from the spec: the cone matcher of `dir.c` specialized to file
paths: a file is included iff it sits at the root, or some ancestor
directory is a recursive key, or its immediate directory is a parent
key. -/
def coneFileMatch (sets : ConeSets) (p : String) : Bool :=
  let ancs := (properDirs p.toList).map (fun d => String.mk ('/' :: d))
  match ancs with
  | [] => true
  | _ :: _ =>
    ancs.any (fun a => sets.recursive.contains a) || sets.parent.contains (ancs.getLastD "")

def matchOf : BuiltPatterns → String → Bool
  | .cone sets => coneFileMatch sets
  | .general lines => matchLines lines

/-- Serialization written through the pattern-file lock:
`write_cone_to_file` in cone mode, else `write_patterns_to_file` (which
round-trips the patterns `add_pattern` parsed back to their text, one per
line). -/
def serializeOf : BuiltPatterns → String
  | .cone sets => write_cone_to_file sets
  | .general lines => lines.foldl (fun acc l => acc ++ l ++ "\n") ""

/-- `write_patterns_and_update`: first call `update_working_directory` with
the result discarded, take the pattern-file lock (dying if held), call
`update_working_directory` again; on failure roll the lock back and
re-materialize from the old on-disk file; on success write the new pattern
file through the lock and commit. -/
def write_patterns_and_update (pl : BuiltPatterns) (s : RepoState) : Outcome :=
  let o1 := update_working_directory (some (matchOf pl)) s
  match o1.res with
  | .die e => ⟨.die e, o1.state, o1.trace⟩
  | _ =>
    if o1.state.patternLock then ⟨.die .patternLockHeld, o1.state, o1.trace⟩
    else
      let o2 := update_working_directory (some (matchOf pl)) o1.state
      match o2.res with
      | .die e => ⟨.die e, o2.state, o1.trace ++ .acqPattern :: (o2.trace ++ [.relPattern])⟩
      | .fail e =>
        let o3 := update_working_directory none o2.state
        ⟨.fail e, o3.state, o1.trace ++ .acqPattern :: (o2.trace ++ .relPattern :: o3.trace)⟩
      | .ok =>
        ⟨.ok, { o2.state with patternFile := some (serializeOf pl) },
          o1.trace ++ .acqPattern :: (o2.trace ++ [.relPattern])⟩

inductive SCMode where
  | noPatterns
  | allPatterns
  | conePatterns
deriving DecidableEq

/-- `sc_set_config`: enable `extensions.worktreeConfig` and write the two
config flags for the mode.  The config store is a collaborator; its writes
are modelled as always succeeding. -/
def sc_set_config (mode : SCMode) (s : RepoState) : RepoState :=
  { s with
    worktreeConfigExt := true,
    sparseCheckout := match mode with
      | .noPatterns => false
      | _ => true,
    sparseCheckoutCone := match mode with
      | .conePatterns => true
      | _ => false }

/-- `sparse_checkout_set`: build the pattern list (cone sets when
`core.sparseCheckoutCone` is set, else general patterns); if
`core.sparseCheckout` was off, flip the config to all-patterns mode first;
run `write_patterns_and_update`; if that failed and this call flipped the
config, flip it back to no-patterns mode. -/
def sparse_checkout_set (args : List String) (s : RepoState) : Outcome :=
  let pl : BuiltPatterns :=
    if s.sparseCheckoutCone then .cone (buildConePatterns args) else .general args
  let flip := !s.sparseCheckout
  let s1 := if flip then sc_set_config .allPatterns s else s
  let o := write_patterns_and_update pl s1
  match o.res with
  | .fail e => ⟨.fail e, if flip then sc_set_config .noPatterns o.state else o.state, o.trace⟩
  | r => ⟨r, o.state, o.trace⟩

/-- `sparse_checkout_init`: set the config for the mode; if a pattern file
already exists reconcile to it, otherwise write the seed file and, in a
repository with no `HEAD`, stop; else reconcile. -/
def sparse_checkout_init (coneOpt : Bool) (s : RepoState) : Outcome :=
  let mode := if coneOpt then SCMode.conePatterns else SCMode.allPatterns
  let s1 := sc_set_config mode s
  match s1.patternFile with
  | some _ => update_working_directory none s1
  | none =>
    let s2 := { s1 with patternFile := some "/*\n!/*/\n" }
    match s2.head with
    | none => ⟨.ok, s2, []⟩
    | some _ => update_working_directory none s2

/-- `sparse_checkout_disable`: flip the config to all-patterns mode,
overwrite the pattern file in place (no lock) with `/*`, reconcile (dying
on failure), unlink the pattern file, and flip the config to no-patterns
mode. -/
def sparse_checkout_disable (s : RepoState) : Outcome :=
  let s1 := sc_set_config .allPatterns s
  let s2 := { s1 with patternFile := some "/*\n" }
  let o := update_working_directory none s2
  match o.res with
  | .ok => ⟨.ok, sc_set_config .noPatterns { o.state with patternFile := none }, o.trace⟩
  | .fail _ => ⟨.die .refreshFailed, o.state, o.trace⟩
  | .die e => ⟨.die e, o.state, o.trace⟩

/-- Did some `acqIndex` happen while the pattern-file lock was held? -/
def goIdxWhilePat : Bool → List LockEv → Bool
  | _, [] => false
  | pH, .acqIndex :: t => pH || goIdxWhilePat pH t
  | pH, .relIndex :: t => goIdxWhilePat pH t
  | _, .acqPattern :: t => goIdxWhilePat true t
  | _, .relPattern :: t => goIdxWhilePat false t

def traceIndexAcqWhilePattern (tr : List LockEv) : Bool := goIdxWhilePat false tr

/-- Did some `acqPattern` happen while the index lock was held? -/
def goPatWhileIdx : Bool → List LockEv → Bool
  | _, [] => false
  | _, .acqIndex :: t => goPatWhileIdx true t
  | _, .relIndex :: t => goPatWhileIdx false t
  | iH, .acqPattern :: t => iH || goPatWhileIdx iH t
  | iH, .relPattern :: t => goPatWhileIdx iH t

def tracePatternAcqWhileIndex (tr : List LockEv) : Bool := goPatWhileIdx false tr

/-- Stack discipline: every release matches the most recently acquired held
lock, and nothing is left held — i.e. locks are released in reverse order
of acquisition. -/
def goNested : List LockEv → List LockEv → Bool
  | stack, [] => stack.isEmpty
  | stack, .acqIndex :: t => goNested (.acqIndex :: stack) t
  | stack, .acqPattern :: t => goNested (.acqPattern :: stack) t
  | stack, .relIndex :: t =>
    match stack with
    | .acqIndex :: st => goNested st t
    | _ => false
  | stack, .relPattern :: t =>
    match stack with
    | .acqPattern :: st => goNested st t
    | _ => false

def traceWellNested (tr : List LockEv) : Bool := goNested [] tr

/-! Concrete repository states for the end-to-end scenarios of the spec
(the test repository holds `a`, `folder1/a`, `folder2/a`, `deep/a`,
`deep/deeper1/a`, `deep/deeper1/deepest/a`, `deep/deeper2/a`). -/

def repoTree : List String :=
  ["a", "deep/a", "deep/deeper1/a", "deep/deeper1/deepest/a", "deep/deeper2/a",
   "folder1/a", "folder2/a"]

/-- A clean, never-sparse repository over `repoTree`. -/
def freshRepo : RepoState :=
  { head := some repoTree,
    indexEntries := repoTree.map (fun p => ⟨p, false, false⟩),
    unmerged := false, patternFile := none, patternLock := false,
    indexLock := false, sparseCheckout := false, sparseCheckoutCone := false,
    worktreeConfigExt := false }

/-- A cone-mode repository over `repoTree` (after scenario 3 of the spec). -/
def coneRepo : RepoState :=
  (sparse_checkout_set ["deep/deeper1/deepest"]
    (sparse_checkout_init true freshRepo).state).state

/-- A fresh repository (no commits) whose pattern-file lock is stale, with
sparse checkout not yet enabled. -/
def lockedFreshRepo : RepoState :=
  { head := none, indexEntries := [], unmerged := false,
    patternFile := some "/*\n!/*/\n", patternLock := true, indexLock := false,
    sparseCheckout := false, sparseCheckoutCone := false, worktreeConfigExt := true }

/-- A cone-mode repository with one file `deep/a` whose sparse-checkout is
already enabled. -/
def deepOnlyRepo : RepoState :=
  { head := some ["deep/a"], indexEntries := [⟨"deep/a", false, false⟩],
    unmerged := false, patternFile := some "/*\n", patternLock := false,
    indexLock := false, sparseCheckout := true, sparseCheckoutCone := true,
    worktreeConfigExt := true }

/-- A general-mode sparse repository with a single root file. -/
def rootFileRepo : RepoState :=
  { head := some ["a"], indexEntries := [⟨"a", false, false⟩], unmerged := false,
    patternFile := some "/*\n", patternLock := false, indexLock := false,
    sparseCheckout := true, sparseCheckoutCone := false, worktreeConfigExt := true }

/-- A sparse cone repository with a single root file and a pattern file. -/
def oneFileConeRepo : RepoState :=
  { head := some ["a"], indexEntries := [⟨"a", false, false⟩], unmerged := false,
    patternFile := some "/*\n!/*/\n", patternLock := false, indexLock := false,
    sparseCheckout := true, sparseCheckoutCone := true, worktreeConfigExt := true }

/-- A sparse repository whose `HEAD` commit has an empty tree. -/
def emptyTreeRepo : RepoState :=
  { head := some [], indexEntries := [], unmerged := false,
    patternFile := some "/*\n", patternLock := false, indexLock := false,
    sparseCheckout := true, sparseCheckoutCone := false, worktreeConfigExt := true }

/-! Lemmas about the ancestor walk of `insert_recursive_pattern`. -/

theorem addAncestorsFuel_mono (fuel : Nat) (parent : List String) (p a : String)
    (h : a ∈ parent) : a ∈ addAncestorsFuel fuel parent p := by
  induction fuel generalizing parent p with
  | zero => exact h
  | succ n ih =>
    simp only [addAncestorsFuel]
    split
    · exact h
    · exact ih _ _ (by split <;> simp_all)

theorem addAncestorsFuel_chain (fuel : Nat) (parent : List String) (p a : String)
    (h : a ∈ ancestorChainFuel fuel p) : a ∈ addAncestorsFuel fuel parent p := by
  induction fuel generalizing parent p with
  | zero => exact absurd h (by simp [ancestorChainFuel])
  | succ n ih =>
    simp only [ancestorChainFuel] at h
    simp only [addAncestorsFuel]
    split at h
    · exact absurd h (by simp)
    · rcases List.mem_cons.mp h with h1 | h1
      · subst h1
        exact addAncestorsFuel_mono _ _ _ _ (by split <;> simp_all)
      · exact ih _ _ h1

theorem addAncestorsFuel_src (fuel : Nat) (parent : List String) (p a : String)
    (h : a ∈ addAncestorsFuel fuel parent p) :
    a ∈ parent ∨ a ∈ ancestorChainFuel fuel p := by
  induction fuel generalizing parent p with
  | zero => exact Or.inl h
  | succ n ih =>
    simp only [addAncestorsFuel] at h
    simp only [ancestorChainFuel]
    split at h
    · exact Or.inl h
    · rcases ih _ _ h with h1 | h1
      · split at h1
        · exact Or.inl h1
        · rcases List.mem_cons.mp h1 with h2 | h2
          · exact Or.inr (by simp [h2])
          · exact Or.inl h2
      · exact Or.inr (List.mem_cons_of_mem _ h1)

theorem addAncestors_mono (parent : List String) (p a : String) (h : a ∈ parent) :
    a ∈ addAncestors parent p :=
  addAncestorsFuel_mono _ _ _ _ h

theorem addAncestors_chain (parent : List String) (p a : String)
    (h : a ∈ ancestorChain p) : a ∈ addAncestors parent p :=
  addAncestorsFuel_chain _ _ _ _ h

theorem addAncestors_src (parent : List String) (p a : String)
    (h : a ∈ addAncestors parent p) : a ∈ parent ∨ a ∈ ancestorChain p :=
  addAncestorsFuel_src _ _ _ _ h

theorem dropLastComponent_ne_empty {p a : String} (h : dropLastComponent p = some a) :
    a ≠ "" := by
  unfold dropLastComponent at h
  split at h
  · exact absurd h (by simp)
  · exact absurd h (by simp)
  · rename_i hd c hne heq
    cases h
    intro hcon
    have hrev : c.reverse = ([] : List Char) := by
      have h2 := congrArg String.data hcon
      simpa using h2
    have hc : c = [] := by simpa using congrArg List.reverse hrev
    exact hne hc

theorem ancestorChainFuel_ne_empty (fuel : Nat) (p a : String)
    (h : a ∈ ancestorChainFuel fuel p) : a ≠ "" := by
  induction fuel generalizing p with
  | zero => exact absurd h (by simp [ancestorChainFuel])
  | succ n ih =>
    simp only [ancestorChainFuel] at h
    split at h
    · exact absurd h (by simp)
    · rename_i b heq
      rcases List.mem_cons.mp h with h1 | h1
      · subst h1
        exact dropLastComponent_ne_empty heq
      · exact ih _ h1

theorem ancestorChain_ne_empty (p a : String) (h : a ∈ ancestorChain p) : a ≠ "" :=
  ancestorChainFuel_ne_empty _ _ _ h

theorem coneStep_inv (x : String) (pl : ConeSets)
    (inv : ∀ r ∈ pl.recursive, ∀ a ∈ ancestorChain r, a ∈ pl.parent) :
    ∀ r ∈ (strbuf_to_cone_pattern x pl).recursive, ∀ a ∈ ancestorChain r,
      a ∈ (strbuf_to_cone_pattern x pl).parent := by
  intro r hr a ha
  simp only [strbuf_to_cone_pattern] at hr ⊢
  split at hr
  · rename_i hcond
    rw [if_pos hcond]
    exact inv r hr a ha
  · rename_i hcond
    rw [if_neg hcond]
    simp only [insert_recursive_pattern] at hr ⊢
    rcases List.mem_cons.mp hr with h1 | h1
    · subst h1
      exact addAncestors_chain _ _ _ ha
    · exact addAncestors_mono _ _ _ (inv r h1 a ha)

theorem buildCone_inv (args : List String) (pl : ConeSets)
    (inv : ∀ r ∈ pl.recursive, ∀ a ∈ ancestorChain r, a ∈ pl.parent) :
    ∀ r ∈ (args.foldl (fun acc x => strbuf_to_cone_pattern x acc) pl).recursive,
      ∀ a ∈ ancestorChain r,
        a ∈ (args.foldl (fun acc x => strbuf_to_cone_pattern x acc) pl).parent := by
  induction args generalizing pl with
  | nil => simpa using inv
  | cons x rest ih =>
    simp only [List.foldl_cons]
    exact ih _ (coneStep_inv x pl inv)

/-- C7: for every path inserted into a cone-mode pattern list, every strict
ancestor of it of length at least 1 — i.e. every key the ancestor walk of
`insert_recursive_pattern` visits, which strips one trailing `/`-component
at a time and stops before reaching the zero-length root key — is a member
of `parent_hashmap` after the insertion, and the zero-length root key is
never added to `parent_hashmap` by any insertion. -/
theorem insert_recursive_ancestors_in_parent (pl : ConeSets) (p : String) :
    (∀ a ∈ ancestorChain p, a ∈ (insert_recursive_pattern pl p).parent) ∧
      ("" ∉ pl.parent → "" ∉ (insert_recursive_pattern pl p).parent) := by
  constructor
  · intro a ha
    exact addAncestors_chain _ _ _ ha
  · intro h hmem
    simp only [insert_recursive_pattern] at hmem
    rcases addAncestors_src _ _ _ hmem with h1 | h1
    · exact h h1
    · exact ancestorChain_ne_empty _ _ h1 rfl

theorem insert_recursive_ancestors_in_parent_witness :
    ("/deep" ∈ (insert_recursive_pattern ⟨[], []⟩ "/deep/deeper1").parent) ∧
      ("" ∉ (insert_recursive_pattern ⟨[], []⟩ "/deep/deeper1").parent) :=
  ⟨(insert_recursive_ancestors_in_parent ⟨[], []⟩ "/deep/deeper1").1 "/deep" (by decide),
   (insert_recursive_ancestors_in_parent ⟨[], []⟩ "/deep/deeper1").2 (by decide)⟩

/-- C3 (counterexample): inserting the single path `deep` puts `/deep` into
`recursive_hashmap` but not into `parent_hashmap` — `insert_recursive_pattern`
only records strict ancestors as parent keys, so the claim that every member
of `recursive_set` is also a member of `parent_set` fails. -/
theorem recursive_member_not_in_parent :
    "/deep" ∈ (buildConePatterns ["deep"]).recursive ∧
      "/deep" ∉ (buildConePatterns ["deep"]).parent := by
  decide

/-- C3 (amended): in a cone-mode pattern list built by inserting any
sequence of paths, every member of `recursive_set` that is a strict
ancestor of another member of `recursive_set` is also a member of
`parent_set`. -/
theorem recursive_ancestor_member_in_parent (args : List String) (r1 r2 : String)
    (h1 : r1 ∈ (buildConePatterns args).recursive)
    (h2 : r2 ∈ (buildConePatterns args).recursive)
    (h3 : r1 ∈ ancestorChain r2) :
    r1 ∈ (buildConePatterns args).parent := by
  have := buildCone_inv args ⟨[], []⟩ (by simp)
  exact this r2 h2 r1 h3

theorem recursive_ancestor_member_in_parent_witness :
    "/deep" ∈ (buildConePatterns ["deep", "deep/deeper1"]).parent :=
  recursive_ancestor_member_in_parent ["deep", "deep/deeper1"] "/deep" "/deep/deeper1"
    (by decide) (by decide) (by decide)

/-- C2: in cone mode, `init --cone` followed by `set deep/deeper1/deepest`
on the test repository (which also holds `deep/a`, `deep/deeper1/a`,
`deep/deeper1/deepest/a`, `deep/deeper2/a`) succeeds and serializes the
pattern file as exactly the seven LF-terminated lines `/*`, `!/*/`,
`/deep/`, `!/deep/*/`, `/deep/deeper1/`, `!/deep/deeper1/*/`,
`/deep/deeper1/deepest/`, in that order. -/
theorem cone_init_set_pattern_file :
    (sparse_checkout_set ["deep/deeper1/deepest"]
        (sparse_checkout_init true freshRepo).state).res = .ok ∧
      (sparse_checkout_set ["deep/deeper1/deepest"]
          (sparse_checkout_init true freshRepo).state).state.patternFile =
        some "/*\n!/*/\n/deep/\n!/deep/*/\n/deep/deeper1/\n!/deep/deeper1/*/\n/deep/deeper1/deepest/\n" := by
  decide

/-- C6: in cone mode, `set deep deep/deeper1/deepest` succeeds and omits the
recursive key `/deep/deeper1/deepest`, which has the ancestor recursive key
`/deep`: the serialized pattern file is exactly the three LF-terminated
lines `/*`, `!/*/`, `/deep/`. -/
theorem cone_set_nested_prunes_redundant :
    (sparse_checkout_set ["deep", "deep/deeper1/deepest"] coneRepo).res = .ok ∧
      (sparse_checkout_set ["deep", "deep/deeper1/deepest"] coneRepo).state.patternFile =
        some "/*\n!/*/\n/deep/\n" := by
  decide

/-- C1 (counterexample): in a fresh repository (no commits) with
`core.sparseCheckout` unset and a stale `sparse-checkout.lock` on disk,
`set deep` fails (the command dies acquiring the pattern-file lock after
this same call flipped the config forward), yet afterwards
`core.sparseCheckout` is `true` while it was `false` before the call — the
post-failure state is not identical to the pre-call state. -/
theorem set_lock_die_changes_config :
    (sparse_checkout_set ["deep"] lockedFreshRepo).res = .die .patternLockHeld ∧
      lockedFreshRepo.sparseCheckout = false ∧
      (sparse_checkout_set ["deep"] lockedFreshRepo).state.sparseCheckout = true := by
  decide

/-- C4 (counterexample): running `set` on a one-file repository produces the
lock trace `[acqIndex, relIndex, acqPattern, acqIndex, relIndex,
relPattern]`: the second working-directory update acquires the index lock
while the pattern-file lock is already held, so the two locks are held
together with the pattern-file lock acquired first — the claimed
index-before-pattern order does not happen. -/
theorem index_lock_acquired_while_pattern_lock_held :
    traceIndexAcqWhilePattern (sparse_checkout_set ["/*"] rootFileRepo).trace = true ∧
      (sparse_checkout_set ["/*"] rootFileRepo).trace =
        [.acqIndex, .relIndex, .acqPattern, .acqIndex, .relIndex, .relPattern] := by
  decide

/-! Idempotence of the one-way merge on its own output. -/

theorem find?_map_path (f : String → IndexEntry) (hf : ∀ q, (f q).path = q)
    (tree : List String) (p : String) :
    (tree.map f).find? (fun e => e.path == p) = (tree.find? (fun q => q == p)).map f := by
  induction tree with
  | nil => rfl
  | cons q t ih =>
    simp only [List.map_cons, List.find?, hf]
    cases hq : q == p
    · simpa [hq] using ih
    · simp [hq]

theorem find?_beq_self {tree : List String} {p : String} (hp : p ∈ tree) :
    tree.find? (fun q => q == p) = some p := by
  induction tree with
  | nil => cases hp
  | cons q t ih =>
    rcases List.mem_cons.mp hp with h1 | h1
    · subst h1
      simp [List.find?]
    · by_cases hq : q = p
      · subst hq
        simp [List.find?]
      · simp only [List.find?]
        rw [show (q == p) = false by simpa using hq]
        exact ih h1

theorem mergedEntry_path (m : String → Bool) (idx : List IndexEntry) (p : String) :
    (mergedEntry m idx p).path = p := rfl

theorem mergedEntry_modified_false (m : String → Bool) (idx : List IndexEntry)
    (p : String) (hm : m p = false) : (mergedEntry m idx p).modified = false := by
  unfold mergedEntry
  cases idx.find? (fun e => e.path == p) <;> simp [hm]

theorem mergedEntry_idem (m : String → Bool) (idx : List IndexEntry)
    (tree : List String) (p : String) (hp : p ∈ tree) :
    mergedEntry m (tree.map (mergedEntry m idx)) p = mergedEntry m idx p := by
  have hfind : (tree.map (mergedEntry m idx)).find? (fun e => e.path == p) =
      some (mergedEntry m idx p) := by
    rw [find?_map_path _ (fun q => rfl), find?_beq_self hp]
    rfl
  have hmod : (!(mergedEntry m idx p).skip && (mergedEntry m idx p).modified && m p) =
      (mergedEntry m idx p).modified := by
    cases hm : m p
    · simp [hm, mergedEntry_modified_false m idx p hm]
    · simp [hm, show (mergedEntry m idx p).skip = !(m p) from rfl]
  have hmodEq : (mergedEntry m (tree.map (mergedEntry m idx)) p).modified =
      (mergedEntry m idx p).modified := by
    show (match (tree.map (mergedEntry m idx)).find? (fun e => e.path == p) with
      | some old => !old.skip && old.modified && m p
      | none => false) = (mergedEntry m idx p).modified
    rw [hfind]
    exact hmod
  have h1 : mergedEntry m (tree.map (mergedEntry m idx)) p =
      ⟨p, !(m p), (mergedEntry m (tree.map (mergedEntry m idx)) p).modified⟩ := rfl
  have h2 : mergedEntry m idx p = ⟨p, !(m p), (mergedEntry m idx p).modified⟩ := rfl
  rw [h1, h2, hmodEq]

theorem unpackTrees_idem (m : String → Bool) (tree : List String)
    (idx idx2 : List IndexEntry) (h : unpackTrees m tree idx = .ok idx2) :
    unpackTrees m tree idx2 = .ok idx2 := by
  unfold unpackTrees at h ⊢
  split at h
  · exact absurd h (by simp)
  · rename_i hg1
    split at h
    · exact absurd h (by simp)
    · rename_i hg2
      cases h
      have hany : ((tree.map (mergedEntry m idx)).any
          (fun e => !e.skip && e.modified && !(m e.path))) = false := by
        apply List.any_eq_false.mpr
        intro e he
        obtain ⟨p, hp, rfl⟩ := List.mem_map.mp he
        cases hm : m p
        · simp [show (mergedEntry m idx p).skip = !(m p) from rfl, hm,
            mergedEntry_modified_false m idx p hm]
        · simp [show (mergedEntry m idx p).skip = !(m p) from rfl,
            show (mergedEntry m idx p).path = p from rfl, hm]
      rw [hany]
      simp only [Bool.false_eq_true, if_false]
      rw [if_neg hg2]
      congr 1
      apply List.map_congr_left
      intro p hp
      exact mergedEntry_idem m idx tree p hp

/-- After a successful `update_working_directory`, a second call with the
same pattern list returns success and leaves the state exactly as the first
call left it. -/
theorem updateWD_second_call_ok (pl : Option (String → Bool)) (s : RepoState)
    (h : (update_working_directory pl s).res = .ok) :
    update_working_directory pl (update_working_directory pl s).state =
      ⟨.ok, (update_working_directory pl s).state, (update_working_directory pl s).trace⟩ := by
  unfold update_working_directory at h ⊢
  dsimp only at h ⊢
  unfold updateWDCore at h ⊢
  cases hu : s.unmerged with
  | true => simp [hu] at h
  | false =>
    cases hh : s.head with
    | none => simp [hu, hh]
    | some tree =>
      cases hil : s.indexLock with
      | true => simp [hu, hh, hil] at h
      | false =>
        cases hup : unpackTrees (pl.getD (interpFile s.patternFile)) tree s.indexEntries with
        | error e => simp [hu, hh, hil, hup] at h
        | ok idx2 =>
          have hup2 := unpackTrees_idem _ _ _ _ hup
          simp [hu, hh, hil, hup, hup2]

/-- C5: if a call to `update_working_directory` with a given pattern list
succeeds, an immediately following second call with the same pattern list
also succeeds and is a no-op: it returns success, leaves the index (and with
it the working tree and on-disk state) exactly as the first call left it,
and performs the same lock motions. -/
theorem update_working_directory_idempotent (pl : Option (String → Bool)) (s : RepoState)
    (h : (update_working_directory pl s).res = .ok) :
    update_working_directory pl (update_working_directory pl s).state =
      ⟨.ok, (update_working_directory pl s).state, (update_working_directory pl s).trace⟩ :=
  updateWD_second_call_ok pl s h

theorem update_working_directory_idempotent_witness :
    update_working_directory none (update_working_directory none rootFileRepo).state =
      ⟨.ok, (update_working_directory none rootFileRepo).state,
        (update_working_directory none rootFileRepo).trace⟩ :=
  update_working_directory_idempotent none rootFileRepo (by decide)

/-- C8: when `HEAD` does not resolve (a fresh repository with no commits,
whose index is readable and has no unmerged entries), `update_working_directory`
returns success for every pattern-list argument and changes nothing: the
index and working tree are untouched and no lock is taken. -/
theorem update_working_directory_no_head (pl : Option (String → Bool)) (s : RepoState)
    (h1 : s.head = none) (h2 : s.unmerged = false) :
    update_working_directory pl s = ⟨.ok, s, []⟩ := by
  have hcore : updateWDCore pl s.unmerged s.head s.indexLock s.patternFile s.indexEntries =
      (.ok, s.indexEntries, []) := by
    unfold updateWDCore
    simp [h1, h2]
  unfold update_working_directory
  rw [hcore]

/-! Frame facts: `update_working_directory` only ever changes the index, and
`sc_set_config` only the config fields. -/

theorem updateWD_state_patternLock (pl : Option (String → Bool)) (s : RepoState) :
    (update_working_directory pl s).state.patternLock = s.patternLock := rfl

theorem updateWD_state_patternFile (pl : Option (String → Bool)) (s : RepoState) :
    (update_working_directory pl s).state.patternFile = s.patternFile := rfl

theorem updateWD_state_sparseCheckout (pl : Option (String → Bool)) (s : RepoState) :
    (update_working_directory pl s).state.sparseCheckout = s.sparseCheckout := rfl

theorem updateWD_state_sparseCheckoutCone (pl : Option (String → Bool)) (s : RepoState) :
    (update_working_directory pl s).state.sparseCheckoutCone = s.sparseCheckoutCone := rfl

theorem sc_set_config_patternFile (mode : SCMode) (s : RepoState) :
    (sc_set_config mode s).patternFile = s.patternFile := rfl

theorem sc_set_config_indexEntries (mode : SCMode) (s : RepoState) :
    (sc_set_config mode s).indexEntries = s.indexEntries := rfl

/-- Reconfiguring commutes with `update_working_directory`: the update never
reads the config fields. -/
theorem update_working_directory_config (pl : Option (String → Bool)) (mode : SCMode)
    (s : RepoState) :
    update_working_directory pl (sc_set_config mode s) =
      ⟨(update_working_directory pl s).res,
        sc_set_config mode (update_working_directory pl s).state,
        (update_working_directory pl s).trace⟩ := rfl

/-- A failing `update_working_directory` changes nothing: the index lock is
rolled back. -/
theorem update_working_directory_fail (pl : Option (String → Bool)) (s : RepoState) (e : Err)
    (h : (update_working_directory pl s).res = .fail e) :
    update_working_directory pl s = ⟨.fail e, s, [.acqIndex, .relIndex]⟩ := by
  obtain ⟨hd, idx, um, pf, plk, il, sc, scc, wce⟩ := s
  unfold update_working_directory at h ⊢
  dsimp only at h ⊢
  unfold updateWDCore at h ⊢
  cases um with
  | true => simp at h
  | false =>
    cases hd with
    | none => simp at h
    | some tree =>
      cases il with
      | true => simp at h
      | false =>
        cases hup : unpackTrees (pl.getD (interpFile pf)) tree idx with
        | error e2 =>
          simp only [hup] at h ⊢
          simp at h
          simp [h]
        | ok idx2 => simp [hup] at h

/-- A failing `write_patterns_and_update` (non-zero return, as opposed to a
die): the pattern file was never touched (the lock is rolled back), both
update calls failed leaving the index as it was, and the final state is the
one produced by re-materializing from the unchanged on-disk pattern file. -/
theorem write_patterns_and_update_fail (pl : BuiltPatterns) (s : RepoState) (e : Err)
    (h : (write_patterns_and_update pl s).res = .fail e) :
    s.patternLock = false ∧
      write_patterns_and_update pl s =
        ⟨.fail e, (update_working_directory none s).state,
          .acqIndex :: .relIndex :: .acqPattern :: .acqIndex :: .relIndex :: .relPattern ::
            (update_working_directory none s).trace⟩ := by
  unfold write_patterns_and_update at h ⊢
  dsimp only at h ⊢
  rcases hr1 : (update_working_directory (some (matchOf pl)) s).res with _ | e1 | e1
  · -- first update succeeded: the second succeeds too, so no failure is possible
    rw [hr1] at h
    rw [updateWD_state_patternLock] at h ⊢
    cases hpl : s.patternLock with
    | true => simp [hpl] at h
    | false =>
      have h2 := updateWD_second_call_ok (some (matchOf pl)) s hr1
      rw [h2] at h
      simp [hpl] at h
  · -- first update failed
    have ho1 := update_working_directory_fail _ _ _ hr1
    simp only [ho1] at h ⊢
    cases hpl : s.patternLock with
    | true => simp [hpl] at h
    | false =>
      simp only [hpl, Bool.false_eq_true, if_false] at h ⊢
      simp at h
      simp [h]
  · -- first update died: the result is a die, not a fail
    rw [hr1] at h
    simp at h

theorem updateWD_indexEntries_config (pl : Option (String → Bool)) (s : RepoState)
    (b1 b2 b3 : Bool) :
    (update_working_directory pl
        { s with sparseCheckout := b1, sparseCheckoutCone := b2,
                 worktreeConfigExt := b3 }).state.indexEntries =
      (update_working_directory pl s).state.indexEntries := rfl

/-- C1 (amended): for every invocation of `set` that fails because the
working-directory update fails (a non-zero return; the command can instead
die while acquiring a held lock, in which case nothing is rolled back), the
pattern file content is unchanged, `core.sparseCheckout` is restored to its
pre-call value, `core.sparseCheckoutCone` is unchanged when
`core.sparseCheckout` was already true and is reset to false otherwise, and
the index is the re-materialization of the unchanged on-disk pattern file
(the pre-call index bytes whenever that index agreed with the file). -/
theorem set_update_failure_restores_state (args : List String) (s : RepoState) (e : Err)
    (h : (sparse_checkout_set args s).res = .fail e) :
    (sparse_checkout_set args s).state.patternFile = s.patternFile ∧
      (sparse_checkout_set args s).state.sparseCheckout = s.sparseCheckout ∧
      (s.sparseCheckout = true →
        (sparse_checkout_set args s).state.sparseCheckoutCone = s.sparseCheckoutCone) ∧
      (s.sparseCheckout = false →
        (sparse_checkout_set args s).state.sparseCheckoutCone = false) ∧
      (sparse_checkout_set args s).state.indexEntries =
        (update_working_directory none s).state.indexEntries := by
  unfold sparse_checkout_set at h ⊢
  dsimp only at h ⊢
  set plx := (if s.sparseCheckoutCone then BuiltPatterns.cone (buildConePatterns args)
    else BuiltPatterns.general args) with hplx
  cases hsc : s.sparseCheckout with
  | true =>
    simp only [hsc, Bool.not_true, Bool.false_eq_true, if_false] at h ⊢
    rcases hr : (write_patterns_and_update plx s).res with _ | e1 | e1
    · rw [hr] at h
      simp at h
    · rw [hr] at h
      obtain ⟨hpl, hwpu⟩ := write_patterns_and_update_fail plx s e1 hr
      simp only [hwpu] at h ⊢
      simp [updateWD_state_patternFile, updateWD_state_sparseCheckout,
        updateWD_state_sparseCheckoutCone, hsc]
    · rw [hr] at h
      simp at h
  | false =>
    simp only [hsc, Bool.not_false, if_true] at h ⊢
    rcases hr : (write_patterns_and_update plx (sc_set_config .allPatterns s)).res with _ | e1 | e1
    · rw [hr] at h
      simp at h
    · rw [hr] at h
      obtain ⟨hpl, hwpu⟩ :=
        write_patterns_and_update_fail plx (sc_set_config .allPatterns s) e1 hr
      simp only [hwpu] at h ⊢
      simp [update_working_directory_config, sc_set_config, updateWD_state_patternFile,
        updateWD_state_sparseCheckout, updateWD_state_sparseCheckoutCone,
        sc_set_config_indexEntries, hsc, updateWD_indexEntries_config]
    · rw [hr] at h
      simp at h

theorem set_update_failure_restores_state_witness :
    (sparse_checkout_set ["other"] deepOnlyRepo).state.patternFile = deepOnlyRepo.patternFile ∧
      (sparse_checkout_set ["other"] deepOnlyRepo).state.sparseCheckout =
        deepOnlyRepo.sparseCheckout ∧
      (deepOnlyRepo.sparseCheckout = true →
        (sparse_checkout_set ["other"] deepOnlyRepo).state.sparseCheckoutCone =
          deepOnlyRepo.sparseCheckoutCone) ∧
      (deepOnlyRepo.sparseCheckout = false →
        (sparse_checkout_set ["other"] deepOnlyRepo).state.sparseCheckoutCone = false) ∧
      (sparse_checkout_set ["other"] deepOnlyRepo).state.indexEntries =
        (update_working_directory none deepOnlyRepo).state.indexEntries :=
  set_update_failure_restores_state ["other"] deepOnlyRepo .emptyCheckout (by decide)

theorem update_working_directory_no_head_witness :
    update_working_directory none lockedFreshRepo = ⟨.ok, lockedFreshRepo, []⟩ :=
  update_working_directory_no_head none lockedFreshRepo rfl rfl

/-- Case analysis of a successful `update_working_directory`: either `HEAD`
did not resolve and nothing happened, or the merge ran under the index lock
and replaced the index. -/
theorem updateWD_ok_cases (pl : Option (String → Bool)) (s : RepoState)
    (h : (update_working_directory pl s).res = .ok) :
    (s.unmerged = false ∧ s.head = none ∧
        update_working_directory pl s = ⟨.ok, s, []⟩) ∨
      (∃ tree idx2, s.unmerged = false ∧ s.head = some tree ∧ s.indexLock = false ∧
        unpackTrees (pl.getD (interpFile s.patternFile)) tree s.indexEntries = .ok idx2 ∧
        update_working_directory pl s =
          ⟨.ok, { s with indexEntries := idx2 }, [.acqIndex, .relIndex]⟩) := by
  obtain ⟨hd, idx, um, pf, plk, il, sc, scc, wce⟩ := s
  unfold update_working_directory at h ⊢
  dsimp only at h ⊢
  unfold updateWDCore at h ⊢
  cases um with
  | true => simp at h
  | false =>
    cases hd with
    | none => simp
    | some tree =>
      cases il with
      | true => simp at h
      | false =>
        cases hup : unpackTrees (pl.getD (interpFile pf)) tree idx with
        | error e2 => simp [hup] at h
        | ok idx2 =>
          right
          exact ⟨tree, idx2, rfl, rfl, rfl, hup, by simp [hup]⟩

/-- C9: a successful `disable` leaves no `info/sparse-checkout` on disk and
sets both `core.sparseCheckout` and `core.sparseCheckoutCone` to false, and
an immediately following second `disable` succeeds and leaves the repository
state unchanged: `disable` is idempotent. -/
theorem disable_idempotent (s : RepoState)
    (h : (sparse_checkout_disable s).res = .ok) :
    (sparse_checkout_disable s).state.patternFile = none ∧
      (sparse_checkout_disable s).state.sparseCheckout = false ∧
      (sparse_checkout_disable s).state.sparseCheckoutCone = false ∧
      (sparse_checkout_disable (sparse_checkout_disable s).state).res = .ok ∧
      (sparse_checkout_disable (sparse_checkout_disable s).state).state =
        (sparse_checkout_disable s).state := by
  obtain ⟨hd, idx, um, pf, plk, il, sc, scc, wce⟩ := s
  unfold sparse_checkout_disable at h ⊢
  unfold sc_set_config at h ⊢
  dsimp only at h ⊢
  rcases hr : (update_working_directory none
      ⟨hd, idx, um, some "/*\n", plk, il, true, false, true⟩).res with _ | e1 | e1
  · rcases updateWD_ok_cases none _ hr with ⟨hum, hhd, hcase⟩ |
      ⟨tree, idx2, hum, hhd, hil, hup, hcase⟩
    · replace hum : um = false := hum
      replace hhd : hd = none := hhd
      subst hum
      subst hhd
      simp only [hcase]
      simp
    · replace hum : um = false := hum
      replace hhd : hd = some tree := hhd
      replace hil : il = false := hil
      subst hum
      subst hhd
      subst hil
      simp only [hcase]
      have hup2 := unpackTrees_idem _ _ _ _ hup
      have hsecond : update_working_directory none
          ⟨some tree, idx2, false, some "/*\n", plk, false, true, false, true⟩ =
          ⟨.ok, ⟨some tree, idx2, false, some "/*\n", plk, false, true, false, true⟩,
            [.acqIndex, .relIndex]⟩ := by
        unfold update_working_directory updateWDCore
        simp only [Option.getD] at hup2 ⊢
        simp [hup2]
      simp only [hsecond]
      simp
  · rw [hr] at h
    simp at h
  · rw [hr] at h
    simp at h

theorem disable_idempotent_witness :
    (sparse_checkout_disable oneFileConeRepo).state.patternFile = none ∧
      (sparse_checkout_disable oneFileConeRepo).state.sparseCheckout = false ∧
      (sparse_checkout_disable oneFileConeRepo).state.sparseCheckoutCone = false ∧
      (sparse_checkout_disable (sparse_checkout_disable oneFileConeRepo).state).res = .ok ∧
      (sparse_checkout_disable (sparse_checkout_disable oneFileConeRepo).state).state =
        (sparse_checkout_disable oneFileConeRepo).state :=
  disable_idempotent oneFileConeRepo (by decide)

/-! Lock-trace shapes. -/

theorem updateWD_trace_cases (pl : Option (String → Bool)) (s : RepoState) :
    (update_working_directory pl s).trace = [] ∨
      (update_working_directory pl s).trace = [.acqIndex, .relIndex] := by
  obtain ⟨hd, idx, um, pf, plk, il, sc, scc, wce⟩ := s
  unfold update_working_directory updateWDCore
  dsimp only
  cases um with
  | true => simp
  | false =>
    cases hd with
    | none => simp
    | some tree =>
      cases il with
      | true => simp
      | false =>
        cases hup : unpackTrees (pl.getD (interpFile pf)) tree idx with
        | error e2 => simp [hup]
        | ok idx2 => simp [hup]

theorem disable_trace (s : RepoState) :
    (sparse_checkout_disable s).trace =
      (update_working_directory none
        { sc_set_config .allPatterns s with patternFile := some "/*\n" }).trace := by
  unfold sparse_checkout_disable
  dsimp only
  rcases hr : (update_working_directory none
      { sc_set_config .allPatterns s with patternFile := some "/*\n" }).res with _ | e1 | e1 <;>
    simp [hr]

theorem wpu_trace_ok (pl : BuiltPatterns) (s : RepoState) :
    tracePatternAcqWhileIndex (write_patterns_and_update pl s).trace = false ∧
      traceWellNested (write_patterns_and_update pl s).trace = true := by
  unfold write_patterns_and_update
  dsimp only
  rcases hr1 : (update_working_directory (some (matchOf pl)) s).res with _ | e1 | e1
  · -- first update returned ok
    rw [updateWD_state_patternLock]
    cases hpl : s.patternLock with
    | true =>
      rcases updateWD_trace_cases (some (matchOf pl)) s with h1 | h1 <;> simp [h1] <;> decide
    | false =>
      rcases hr2 : (update_working_directory (some (matchOf pl))
          (update_working_directory (some (matchOf pl)) s).state).res with _ | e2 | e2 <;>
        rcases updateWD_trace_cases (some (matchOf pl)) s with h1 | h1 <;>
        rcases updateWD_trace_cases (some (matchOf pl))
          (update_working_directory (some (matchOf pl)) s).state with h2 | h2 <;>
        rcases updateWD_trace_cases none
          (update_working_directory (some (matchOf pl))
            (update_working_directory (some (matchOf pl)) s).state).state with h3 | h3 <;>
        simp [h1, h2, h3] <;> decide
  · -- first update failed: same continuation shape
    rw [updateWD_state_patternLock]
    cases hpl : s.patternLock with
    | true =>
      rcases updateWD_trace_cases (some (matchOf pl)) s with h1 | h1 <;> simp [h1] <;> decide
    | false =>
      rcases hr2 : (update_working_directory (some (matchOf pl))
          (update_working_directory (some (matchOf pl)) s).state).res with _ | e2 | e2 <;>
        rcases updateWD_trace_cases (some (matchOf pl)) s with h1 | h1 <;>
        rcases updateWD_trace_cases (some (matchOf pl))
          (update_working_directory (some (matchOf pl)) s).state with h2 | h2 <;>
        rcases updateWD_trace_cases none
          (update_working_directory (some (matchOf pl))
            (update_working_directory (some (matchOf pl)) s).state).state with h3 | h3 <;>
        simp [h1, h2, h3] <;> decide
  · -- first update died
    rcases updateWD_trace_cases (some (matchOf pl)) s with h1 | h1 <;> simp [h1] <;> decide

theorem set_trace (args : List String) (s : RepoState) :
    (sparse_checkout_set args s).trace =
      (write_patterns_and_update
        (if s.sparseCheckoutCone then .cone (buildConePatterns args) else .general args)
        (if !s.sparseCheckout then sc_set_config .allPatterns s else s)).trace := by
  unfold sparse_checkout_set
  dsimp only
  rcases hr : (write_patterns_and_update
      (if s.sparseCheckoutCone then BuiltPatterns.cone (buildConePatterns args)
        else BuiltPatterns.general args)
      (if !s.sparseCheckout then sc_set_config .allPatterns s else s)).res with _ | e1 | e1 <;>
    simp [hr]

theorem init_trace_cases (b : Bool) (s : RepoState) :
    (sparse_checkout_init b s).trace = [] ∨
      (sparse_checkout_init b s).trace = [.acqIndex, .relIndex] := by
  unfold sparse_checkout_init
  dsimp only
  rw [show (sc_set_config (if b then SCMode.conePatterns else SCMode.allPatterns) s).patternFile
    = s.patternFile from rfl]
  rcases hpf : s.patternFile with _ | c
  · rw [show ({ sc_set_config (if b then SCMode.conePatterns else SCMode.allPatterns) s
        with patternFile := some "/*\n!/*/\n" } : RepoState).head = s.head from rfl]
    rcases hh : s.head with _ | tree
    · simp
    · exact updateWD_trace_cases none _
  · exact updateWD_trace_cases none _

/-- C4 (amended): in every execution of the engine's operations (`set`,
`init`, `disable`), whenever both locks are held the pattern-file lock was
acquired before the index lock — the index lock is never acquired first and
then held while the pattern-file lock is taken — and locks are released in
reverse order of acquisition (stack discipline, nothing left held). -/
theorem pattern_lock_acquired_first (args : List String) (b : Bool) (s : RepoState) :
    (tracePatternAcqWhileIndex (sparse_checkout_set args s).trace = false ∧
        traceWellNested (sparse_checkout_set args s).trace = true) ∧
      (tracePatternAcqWhileIndex (sparse_checkout_init b s).trace = false ∧
        traceWellNested (sparse_checkout_init b s).trace = true) ∧
      (tracePatternAcqWhileIndex (sparse_checkout_disable s).trace = false ∧
        traceWellNested (sparse_checkout_disable s).trace = true) := by
  refine ⟨?_, ?_, ?_⟩
  · rw [set_trace]
    exact wpu_trace_ok _ _
  · rcases init_trace_cases b s with h | h <;> rw [h] <;> exact ⟨by decide, by decide⟩
  · rw [disable_trace]
    rcases updateWD_trace_cases none
        { sc_set_config .allPatterns s with patternFile := some "/*\n" } with h | h <;>
      rw [h] <;> exact ⟨by decide, by decide⟩

/-- C10: `disable` overwrites the pattern file in place with exactly `/*`
followed by a newline, without taking the pattern-file lock (its lock trace
never contains a pattern-lock event), before reconciling; the file is
unlinked only after the reconcile succeeds, so when the reconcile fails the
command dies with the pattern file still containing `/*` and
`core.sparseCheckout` still true — the pre-call state is not restored. -/
theorem disable_intermediate_state_on_failure (s : RepoState) (e : Err) :
    (LockEv.acqPattern ∉ (sparse_checkout_disable s).trace ∧
        LockEv.relPattern ∉ (sparse_checkout_disable s).trace) ∧
      ((update_working_directory none
          { sc_set_config .allPatterns s with patternFile := some "/*\n" }).res = .fail e →
        sparse_checkout_disable s =
          ⟨.die .refreshFailed,
            { sc_set_config .allPatterns s with patternFile := some "/*\n" },
            [.acqIndex, .relIndex]⟩ ∧
          (sparse_checkout_disable s).state.patternFile = some "/*\n" ∧
          (sparse_checkout_disable s).state.sparseCheckout = true) := by
  constructor
  · rw [disable_trace s]
    rcases updateWD_trace_cases none
        { sc_set_config .allPatterns s with patternFile := some "/*\n" } with h | h <;>
      rw [h] <;> exact ⟨by decide, by decide⟩
  · intro hfail
    have hchar := update_working_directory_fail none _ e hfail
    have hdis : sparse_checkout_disable s =
        ⟨.die .refreshFailed,
          { sc_set_config .allPatterns s with patternFile := some "/*\n" },
          [.acqIndex, .relIndex]⟩ := by
      unfold sparse_checkout_disable
      dsimp only
      rw [hchar]
    exact ⟨hdis, by rw [hdis], by rw [hdis]; rfl⟩

theorem disable_intermediate_state_on_failure_witness :
    (LockEv.acqPattern ∉ (sparse_checkout_disable emptyTreeRepo).trace ∧
        LockEv.relPattern ∉ (sparse_checkout_disable emptyTreeRepo).trace) ∧
      ((update_working_directory none
          { sc_set_config .allPatterns emptyTreeRepo with patternFile := some "/*\n" }).res =
            .fail .emptyCheckout →
        sparse_checkout_disable emptyTreeRepo =
          ⟨.die .refreshFailed,
            { sc_set_config .allPatterns emptyTreeRepo with patternFile := some "/*\n" },
            [.acqIndex, .relIndex]⟩ ∧
          (sparse_checkout_disable emptyTreeRepo).state.patternFile = some "/*\n" ∧
          (sparse_checkout_disable emptyTreeRepo).state.sparseCheckout = true) :=
  disable_intermediate_state_on_failure emptyTreeRepo .emptyCheckout
